import Mathlib

/-!
Shallow embedding of the task tracker in `src/todo-list.py` (the most evolved
task-tracker variant: CSV task table, per-task YAML history log, CRUD and
terminal-transition operations on an in-memory registry).

Interactive prompts (`input(...)`) are modelled by passing the entered strings
as explicit arguments; `datetime.now().isoformat()` is modelled by passing the
produced timestamp string as an explicit argument.  File contents are modelled
as explicit values (`List Row` for `tasks.csv`, `Option (List ...)` for a
per-task YAML file, `none` meaning the file does not exist).
-/

namespace TodoList

/-! ### Models of the Python string builtins used by the script -/

/-- Whitespace characters removed by Python `str.strip()`. -/
def pyIsSpace (c : Char) : Bool :=
  c.toNat = 32 || c.toNat = 9 || c.toNat = 10 || c.toNat = 13 || c.toNat = 11 || c.toNat = 12

/-- Python `s.strip()`: drop leading and trailing whitespace. -/
def pyStrip (s : String) : String :=
  ⟨(((s.data.dropWhile pyIsSpace).reverse.dropWhile pyIsSpace).reverse)⟩

/-- Python `c.upper()` on one character (ASCII letters, as used by the script). -/
def pyUpperChar (c : Char) : Char :=
  if 97 ≤ c.toNat ∧ c.toNat ≤ 122 then Char.ofNat (c.toNat - 32) else c

/-- Python `s.upper()`. -/
def pyUpper (s : String) : String :=
  ⟨s.data.map pyUpperChar⟩

/-- Python `s.replace(" ", "_")` (single-character pattern, hence a map). -/
def pyUnderscore (s : String) : String :=
  ⟨s.data.map (fun c => if c = ' ' then '_' else c)⟩

/-- Decimal digit character for `d < 10` (as produced by Python `str(int)`). -/
def digitChar (d : Nat) : Char :=
  if d = 0 then '0' else if d = 1 then '1' else if d = 2 then '2'
  else if d = 3 then '3' else if d = 4 then '4' else if d = 5 then '5'
  else if d = 6 then '6' else if d = 7 then '7' else if d = 8 then '8' else '9'

/-- Little-endian decimal digits, fuel-based so that it is structurally
recursive (the fuel `n` itself always suffices since `n / 10 < n`). -/
def natDigitsRevCore : Nat → Nat → List Char
  | _, 0 => []
  | 0, _ + 1 => []
  | fuel + 1, n + 1 => digitChar ((n + 1) % 10) :: natDigitsRevCore fuel ((n + 1) / 10)

/-- Little-endian decimal digits of a positive number. -/
def natDigitsRev (n : Nat) : List Char := natDigitsRevCore n n

/-- Python `str(n)` for a natural number. -/
def pyStr (n : Nat) : String :=
  if n = 0 then "0" else ⟨(natDigitsRev n).reverse⟩

/-- Is `c` a decimal digit? -/
def isDigitChar (c : Char) : Bool :=
  48 ≤ c.toNat && c.toNat ≤ 57

/-- Numeric value of a digit character. -/
def digitVal (c : Char) : Nat := c.toNat - 48

/-- Python `int(s)` on a non-negative decimal literal, `none` when `int`
would raise `ValueError` (the script only ever converts such strings). -/
def pyInt? (s : String) : Option Nat :=
  if s.data ≠ [] ∧ s.data.all isDigitChar then
    some (s.data.foldl (fun n c => n * 10 + digitVal c) 0)
  else none

/-- Python `<=` on strings: lexicographic by code point (used for the
chronological order of `isoformat` timestamps). -/
def charListLe : List Char → List Char → Bool
  | [], _ => true
  | _ :: _, [] => false
  | a :: as, b :: bs =>
    if a.toNat < b.toNat then true
    else if b.toNat < a.toNat then false
    else charListLe as bs

/-- Python `s <= t` on strings. -/
def strLe (s t : String) : Bool := charListLe s.data t.data

/-! ### Data structures (`Task` and `Entry` namedtuples) -/

/-- The `Task` namedtuple: `id owner title description priority uri status
created_at finished_at`, defaults `("IN PROGRESS", None, None)`.
`created_at` always holds an `isoformat` string once a task exists;
`finished_at` is `None` (here `none`) until the task is finalized. -/
structure Task where
  id : Nat
  owner : String
  title : String
  description : String
  priority : String
  uri : String
  status : String
  created_at : String
  finished_at : Option String
deriving Repr, DecidableEq

/-- The `Entry` namedtuple: `date action activity`. -/
structure Entry where
  date : String
  action : String
  activity : String
deriving Repr, DecidableEq

/-! ### Python `dict` as an insertion-ordered association list -/

/-- `d[k]` lookup returning `Option`, like `dict.get`. -/
def dictGet {α : Type} : List (Nat × α) → Nat → Option α
  | [], _ => none
  | (k', v) :: rest, k => if k' = k then some v else dictGet rest k

/-- `d[k] = v`: replace in place when the key exists, append otherwise
(Python dicts preserve insertion order). -/
def dictInsert {α : Type} : List (Nat × α) → Nat → α → List (Nat × α)
  | [], k, v => [(k, v)]
  | (k', v') :: rest, k, v =>
    if k' = k then (k, v) :: rest else (k', v') :: dictInsert rest k v

/-! ### Global state of the script -/

/-- The module-level mutable state: `dict_tasks`, `history`
(a `defaultdict(list)`), and the `next_id` counter. -/
structure AppState where
  dict_tasks : List (Nat × Task)
  history : List (Nat × List Entry)
  next_id : Nat
deriving Repr, DecidableEq

/-- The state at program start: empty registries, `next_id = 1000`. -/
def initState : AppState := ⟨[], [], 1000⟩

/-- `find_task`: `dict_tasks.get(int(task_id))` (logs a warning and returns
`None` when absent). -/
def find_task (st : AppState) (task_id : Nat) : Option Task :=
  dictGet st.dict_tasks task_id

/-- `history[task_id]` on the `defaultdict(list)`. -/
def histGet (h : List (Nat × List Entry)) (task_id : Nat) : List Entry :=
  (dictGet h task_id).getD []

/-- `history[task_id].append(e)`. -/
def histAppend (h : List (Nat × List Entry)) (task_id : Nat) (e : Entry) :
    List (Nat × List Entry) :=
  dictInsert h task_id (histGet h task_id ++ [e])

/-- The `priority_map = {"1": "LOW", "2": "MEDIUM", "3": "HIGH"}` lookup with
default `"LOW"`: `priority_map.get(priority_choice, "LOW")`. -/
def priorityOf (choice : String) : String :=
  if choice = "1" then "LOW"
  else if choice = "2" then "MEDIUM"
  else if choice = "3" then "HIGH"
  else "LOW"

/-! ### CRUD operations -/

/-- `add_task`: reads owner/title/description/priority choice, builds the
task with `id = next_id`, `uri = owner.replace(" ", "_") + "_" + str(next_id)`,
`status = "IN PROGRESS"`, `created_at = now`, `finished_at = None`; stores it,
appends a `CREATED` history entry, and increments `next_id`.
`now1` is the `get_date()` call for `created_at`, `now2` the one for the
history entry.  Returns the new state and the assigned id. -/
def add_task (st : AppState)
    (ownerIn titleIn descriptionIn choiceIn now1 now2 : String) :
    AppState × Nat :=
  let owner := pyStrip ownerIn
  let title := pyStrip titleIn
  let description := pyStrip descriptionIn
  let priority := priorityOf (pyStrip choiceIn)
  let uri := pyUnderscore owner ++ "_" ++ pyStr st.next_id
  let task : Task :=
    ⟨st.next_id, owner, title, description, priority, uri, "IN PROGRESS", now1, none⟩
  let entry : Entry := ⟨now2, "CREATED", "Task \x27" ++ title ++ "\x27 created"⟩
  (⟨dictInsert st.dict_tasks st.next_id task,
    histAppend st.history st.next_id entry,
    st.next_id + 1⟩, st.next_id)

/-- `update_task`: finds the task (any status); empty (post-strip) input keeps
the prior value of title/description/owner; `uri` is recomputed from the new
owner; appends an `UPDATED` history entry.  Returns `none` when the id is not
in `dict_tasks` (the not-found signal), leaving the state untouched. -/
def update_task (st : AppState) (task_id : Nat)
    (titleIn descriptionIn ownerIn now : String) :
    AppState × Option Task :=
  match find_task st task_id with
  | none => (st, none)
  | some task =>
    let title := if pyStrip titleIn = "" then task.title else pyStrip titleIn
    let description :=
      if pyStrip descriptionIn = "" then task.description else pyStrip descriptionIn
    let owner := if pyStrip ownerIn = "" then task.owner else pyStrip ownerIn
    let uri := pyUnderscore owner ++ "_" ++ pyStr task_id
    let updated : Task :=
      { task with title := title, description := description, owner := owner, uri := uri }
    let entry : Entry := ⟨now, "UPDATED", "Task updated: " ++ title⟩
    (⟨dictInsert st.dict_tasks task_id updated,
      histAppend st.history task_id entry,
      st.next_id⟩, some updated)

/-- `add_entry`: finds the task, appends an `ENTRY` history record.
Returns `false` (state untouched) when the id is absent. -/
def add_entry (st : AppState) (task_id : Nat) (activityIn now : String) :
    AppState × Bool :=
  match find_task st task_id with
  | none => (st, false)
  | some _ =>
    let entry : Entry := ⟨now, "ENTRY", pyStrip activityIn⟩
    (⟨st.dict_tasks, histAppend st.history task_id entry, st.next_id⟩, true)

/-- Outcome of `finalize_task`:  the id was absent, the task was already in a
terminal state (the script prints "Task already completed." and returns — the
`InvalidStateError` of the design), or success with the updated task. -/
inductive FinalizeResult where
  | notFound : FinalizeResult
  | invalidState : FinalizeResult
  | ok : Task → FinalizeResult
deriving Repr, DecidableEq

/-- `finalize_task`: finds the task; rejects it when `task.status` is already
`SUCCESS` or `FAILED` *before* any mutation; otherwise sets
`status := statusIn` (normalised by the `.strip().upper()` of the prompt loop,
which re-prompts until the value is `SUCCESS` or `FAILED`), sets
`finished_at := now1`, and appends a `COMPLETED` history entry whose activity
text embeds the status and the comment.  `now1` is the `get_date()` used for
`finished_at`, `now2` the one for the history entry. -/
def finalize_task (st : AppState) (task_id : Nat)
    (statusIn commentIn now1 now2 : String) :
    AppState × FinalizeResult :=
  match find_task st task_id with
  | none => (st, FinalizeResult.notFound)
  | some task =>
    if task.status = "SUCCESS" ∨ task.status = "FAILED" then
      (st, FinalizeResult.invalidState)
    else
      let status := pyUpper (pyStrip statusIn)
      let comment := pyStrip commentIn
      let updated : Task := { task with status := status, finished_at := some now1 }
      let entry : Entry :=
        ⟨now2, "COMPLETED", "Task marked as " ++ status ++ ". Comment: " ++ comment⟩
      (⟨dictInsert st.dict_tasks task_id updated,
        histAppend st.history task_id entry,
        st.next_id⟩, FinalizeResult.ok updated)

/-- `view_history`: `None` when the task does not exist, otherwise the
in-memory history list (the script returns `history[task_id] if
history[task_id] else []`, which is that list in both cases). -/
def view_history (st : AppState) (task_id : Nat) : Option (List Entry) :=
  match find_task st task_id with
  | none => none
  | some _ => some (histGet st.history task_id)

/-! ### CSV persistence of the task table (`save_csv` / `load_csv`) -/

/-- One row of `tasks.csv` as produced by `csv.DictWriter` and consumed by
`csv.DictReader`: every cell is a string. -/
structure Row where
  id : String
  owner : String
  title : String
  description : String
  priority : String
  uri : String
  status : String
  created_at : String
  finished_at : String
deriving Repr, DecidableEq

/-- How `csv.DictWriter` stringifies an optional field: Python `None`
becomes the empty cell. -/
def optStr : Option String → String
  | none => ""
  | some s => s

/-- `writer.writerow(task._asdict())`: stringify every field. -/
def saveRow (t : Task) : Row :=
  ⟨pyStr t.id, t.owner, t.title, t.description, t.priority, t.uri,
   t.status, t.created_at, optStr t.finished_at⟩

/-- `save_csv`: one row per task, in `dict_tasks` insertion order. -/
def save_csv (st : AppState) : List Row :=
  st.dict_tasks.map (fun p => saveRow p.2)

/-- The `Task(...)` built by `load_csv` from a kept row (with the parsed id):
owner/title/description/uri are stripped, priority is stripped and
upper-cased, status/created_at/finished_at are taken as the raw strings. -/
def parseRow (r : Row) (i : Nat) : Task :=
  ⟨i, pyStrip r.owner, pyStrip r.title, pyStrip r.description,
   pyUpper (pyStrip r.priority), pyStrip r.uri, r.status, r.created_at,
   some r.finished_at⟩

/-- The row loop of `load_csv`: a row is kept only when both its `id` and
`title` cells are non-empty (Python truthiness of `row.get('id') and
row.get('title')`); a cell `int()` cannot parse raises inside the `try`, so
the loop aborts and the tasks accumulated so far are returned. -/
def loadCsvAux (acc : List (Nat × Task)) : List Row → List (Nat × Task)
  | [] => acc
  | r :: rest =>
    if r.id ≠ "" ∧ r.title ≠ "" then
      match pyInt? r.id with
      | some i => loadCsvAux (dictInsert acc i (parseRow r i)) rest
      | none => acc
    else loadCsvAux acc rest

/-- `load_csv` restricted to its `tasks` result. -/
def load_csv (rows : List Row) : List (Nat × Task) :=
  loadCsvAux [] rows

/-- The `next_id` update of `load_csv`: `max(tasks.keys()) + 1` when any task
was loaded, otherwise the counter keeps its base value `1000`. -/
def postLoadNextId (tasks : List (Nat × Task)) : Nat :=
  if tasks.isEmpty then 1000 else ((tasks.map Prod.fst).foldl Nat.max 0) + 1

/-- The field-wise effect of one save-and-reload on a kept task.  A task
equals its own normalisation exactly when the reload reproduces it. -/
def normalizeTask (t : Task) : Task :=
  ⟨t.id, pyStrip t.owner, pyStrip t.title, pyStrip t.description,
   pyUpper (pyStrip t.priority), pyStrip t.uri, t.status, t.created_at,
   some (optStr t.finished_at)⟩

/-! ### YAML persistence of a history log (`save_history` / `load_history`) -/

/-- `entry._asdict()` as dumped to YAML (`sort_keys=False` keeps this
insertion order of the namedtuple fields). -/
def entryDict (e : Entry) : List (String × String) :=
  [("date", e.date), ("action", e.action), ("activity", e.activity)]

/-- `Entry(**item)`: rebuild an `Entry` from a loaded YAML mapping; any other
shape raises, which `load_history` turns into an empty result. -/
def parseEntry : List (String × String) → Option Entry
  | [("date", d), ("action", a), ("activity", x)] => some ⟨d, a, x⟩
  | _ => none

/-- `save_history` restricted to the file content it writes for one log. -/
def save_history (log : List Entry) : List (List (String × String)) :=
  log.map entryDict

/-- The list comprehension `[Entry(**item) for item in data]`: all records
must parse, a single failure raises (handled by the caller). -/
def parseEntries : List (List (String × String)) → Option (List Entry)
  | [] => some []
  | d :: rest =>
    match parseEntry d, parseEntries rest with
    | some e, some es => some (e :: es)
    | _, _ => none

/-- `load_history` on the content of one task's YAML file: `none` models a
missing file (→ empty history); a parse failure of any record also yields
the empty history (the `except` branch). -/
def load_history : Option (List (List (String × String))) → List Entry
  | none => []
  | some items =>
    match parseEntries items with
    | some es => es
    | none => []

/-- `history[task_id].append(record)`: the append-only primitive of the
history log. -/
def appendRecord (log : List Entry) (e : Entry) : List Entry :=
  log ++ [e]

/-! ### Sequences of interactive operations (for process-lifetime claims) -/

/-- One menu operation together with the strings the user enters and the
timestamps `get_date()` produces during it. -/
inductive Op where
  | add (ownerIn titleIn descriptionIn choiceIn now1 now2 : String) : Op
  | update (task_id : Nat) (titleIn descriptionIn ownerIn now : String) : Op
  | entry (task_id : Nat) (activityIn now : String) : Op
  | finalize (task_id : Nat) (statusIn commentIn now1 now2 : String) : Op
deriving Repr

/-- Execute one operation; the second component lists the task id assigned
by the operation (non-empty only for `add_task`). -/
def stepOp (st : AppState) : Op → AppState × List Nat
  | Op.add o t d c n1 n2 =>
    let r := add_task st o t d c n1 n2
    (r.1, [r.2])
  | Op.update i t d o n => ((update_task st i t d o n).1, [])
  | Op.entry i a n => ((add_entry st i a n).1, [])
  | Op.finalize i s c n1 n2 => ((finalize_task st i s c n1 n2).1, [])

/-- Execute a whole session; collects all assigned ids in order. -/
def runOps : AppState → List Op → AppState × List Nat
  | st, [] => (st, [])
  | st, op :: ops =>
    let r := stepOp st op
    let r' := runOps r.1 ops
    (r'.1, r.2 ++ r'.2)

/-! ### Helper lemmas: decimal digits and `str`/`int` round trip -/

theorem natDigitsRevCore_zero (fuel : Nat) : natDigitsRevCore fuel 0 = [] := by
  cases fuel <;> rfl

theorem natDigitsRevCore_congr :
    ∀ f1 f2 n, n ≤ f1 → n ≤ f2 → natDigitsRevCore f1 n = natDigitsRevCore f2 n := by
  intro f1
  induction f1 with
  | zero =>
    intro f2 n h1 _
    have : n = 0 := Nat.le_zero.mp h1
    subst this
    rw [natDigitsRevCore_zero, natDigitsRevCore_zero]
  | succ g ih =>
    intro f2 n h1 h2
    match n with
    | 0 => rw [natDigitsRevCore_zero, natDigitsRevCore_zero]
    | m + 1 =>
      match f2, h2 with
      | g2 + 1, _ =>
        show digitChar ((m + 1) % 10) :: natDigitsRevCore g ((m + 1) / 10)
            = digitChar ((m + 1) % 10) :: natDigitsRevCore g2 ((m + 1) / 10)
        have hdiv : (m + 1) / 10 < m + 1 := Nat.div_lt_self (Nat.succ_pos m) (by decide)
        have hg : (m + 1) / 10 ≤ g := by omega
        have hg2 : (m + 1) / 10 ≤ g2 := by omega
        rw [ih g2 ((m + 1) / 10) hg hg2]

theorem natDigitsRev_succ (n : Nat) (h : n ≠ 0) :
    natDigitsRev n = digitChar (n % 10) :: natDigitsRev (n / 10) := by
  match n, h with
  | m + 1, _ =>
    show natDigitsRevCore (m + 1) (m + 1) = _
    show digitChar ((m + 1) % 10) :: natDigitsRevCore m ((m + 1) / 10) = _
    have hdiv : (m + 1) / 10 < m + 1 := Nat.div_lt_self (Nat.succ_pos m) (by decide)
    rw [natDigitsRevCore_congr m ((m + 1) / 10) ((m + 1) / 10) (by omega) le_rfl]
    rfl

theorem isDigitChar_digitChar {d : Nat} (h : d < 10) : isDigitChar (digitChar d) = true := by
  interval_cases d <;> decide

theorem digitVal_digitChar {d : Nat} (h : d < 10) : digitVal (digitChar d) = d := by
  interval_cases d <;> decide

theorem natDigitsRev_ne_nil {n : Nat} (h : n ≠ 0) : natDigitsRev n ≠ [] := by
  rw [natDigitsRev_succ n h]
  exact List.cons_ne_nil _ _

theorem natDigitsRev_all : ∀ n : Nat, (natDigitsRev n).all isDigitChar = true
  | 0 => rfl
  | n + 1 => by
    rw [natDigitsRev_succ (n + 1) (Nat.succ_ne_zero n)]
    have ih := natDigitsRev_all ((n + 1) / 10)
    have hd := isDigitChar_digitChar (Nat.mod_lt (n + 1) (by decide) : (n + 1) % 10 < 10)
    simp [List.all_cons, ih, hd]
  termination_by n => n
  decreasing_by exact Nat.div_lt_self (Nat.succ_pos n) (by decide)

theorem foldl_digits : ∀ n a : Nat,
    ((natDigitsRev n).reverse).foldl (fun m c => m * 10 + digitVal c) a
      = a * 10 ^ (natDigitsRev n).length + n
  | 0, a => by simp [natDigitsRev, natDigitsRevCore]
  | n + 1, a => by
    rw [natDigitsRev_succ (n + 1) (Nat.succ_ne_zero n)]
    have ih := foldl_digits ((n + 1) / 10) a
    simp only [List.reverse_cons, List.foldl_append, List.foldl_cons, List.foldl_nil,
      List.length_cons]
    rw [ih, digitVal_digitChar (Nat.mod_lt (n + 1) (by decide) : (n + 1) % 10 < 10)]
    have hdm : 10 * ((n + 1) / 10) + (n + 1) % 10 = n + 1 := Nat.div_add_mod (n + 1) 10
    rw [pow_succ, ← Nat.mul_assoc]
    omega
  termination_by n _ => n
  decreasing_by exact Nat.div_lt_self (Nat.succ_pos n) (by decide)

theorem pyStr_data (n : Nat) (h : n ≠ 0) : (pyStr n).data = (natDigitsRev n).reverse := by
  unfold pyStr
  rw [if_neg h]

theorem pyStr_ne_empty (n : Nat) : pyStr n ≠ "" := by
  by_cases h : n = 0
  · subst h; decide
  · intro hcon
    have : (pyStr n).data = [] := by rw [hcon]
    rw [pyStr_data n h] at this
    exact natDigitsRev_ne_nil h (List.reverse_eq_nil_iff.mp this)

theorem pyInt?_pyStr (n : Nat) : pyInt? (pyStr n) = some n := by
  by_cases h : n = 0
  · subst h; decide
  · unfold pyInt?
    have hdata := pyStr_data n h
    have hne : (pyStr n).data ≠ [] := by
      rw [hdata]
      simpa using natDigitsRev_ne_nil h
    have hall : (pyStr n).data.all isDigitChar = true := by
      rw [hdata]
      simpa [List.all_eq_true, List.mem_reverse] using
        (List.all_eq_true.mp (natDigitsRev_all n))
    rw [if_pos ⟨hne, hall⟩, hdata, foldl_digits n 0]
    simp

/-! ### Helper lemmas: the insertion-ordered dictionary -/

theorem dictGet_dictInsert_self {α : Type} (l : List (Nat × α)) (k : Nat) (v : α) :
    dictGet (dictInsert l k v) k = some v := by
  induction l with
  | nil => simp [dictInsert, dictGet]
  | cons p rest ih =>
    by_cases h : p.1 = k
    · simp [dictInsert, dictGet, h]
    · obtain ⟨k', v'⟩ := p
      simp only at h
      simp [dictInsert, dictGet, h, ih]

theorem dictGet_dictInsert_other {α : Type} (l : List (Nat × α)) (k k' : Nat) (v : α)
    (h : k' ≠ k) : dictGet (dictInsert l k v) k' = dictGet l k' := by
  have hkk : ¬ k = k' := fun hc => h hc.symm
  induction l with
  | nil =>
    simp only [dictInsert, dictGet]
    rw [if_neg hkk]
  | cons p rest ih =>
    obtain ⟨k₀, v₀⟩ := p
    by_cases h0 : k₀ = k
    · subst h0
      simp only [dictInsert, if_pos rfl, dictGet]
      rw [if_neg hkk, if_neg hkk]
    · simp only [dictInsert, if_neg h0, dictGet, ih]

theorem dictInsert_of_not_mem {α : Type} (l : List (Nat × α)) (k : Nat) (v : α)
    (h : k ∉ l.map Prod.fst) : dictInsert l k v = l ++ [(k, v)] := by
  induction l with
  | nil => rfl
  | cons p rest ih =>
    obtain ⟨k₀, v₀⟩ := p
    simp only [List.map_cons, List.mem_cons] at h
    push_neg at h
    have hne : ¬ k₀ = k := fun hc => h.1 hc.symm
    simp [dictInsert, hne, ih h.2]

theorem mem_dictInsert {α : Type} (l : List (Nat × α)) (k : Nat) (v : α) (p : Nat × α)
    (h : p ∈ dictInsert l k v) : p ∈ l ∨ p = (k, v) := by
  induction l with
  | nil => simpa [dictInsert] using h
  | cons q rest ih =>
    obtain ⟨k₀, v₀⟩ := q
    by_cases h0 : k₀ = k
    · simp only [dictInsert, if_pos h0, List.mem_cons] at h
      rcases h with h | h
      · exact Or.inr h
      · exact Or.inl (List.mem_cons_of_mem _ h)
    · simp only [dictInsert, if_neg h0, List.mem_cons] at h
      rcases h with h | h
      · exact Or.inl (h ▸ List.mem_cons_self _ _)
      · rcases ih h with h' | h'
        · exact Or.inl (List.mem_cons_of_mem _ h')
        · exact Or.inr h'

/-! ### Helper lemmas: history serialization -/

theorem parseEntry_entryDict (e : Entry) : parseEntry (entryDict e) = some e := rfl

theorem load_save_history (log : List Entry) :
    load_history (some (save_history log)) = log := by
  have h : parseEntries (save_history log) = some log := by
    induction log with
    | nil => rfl
    | cons e rest ih =>
      have ih' : parseEntries (List.map entryDict rest) = some rest := ih
      simp [save_history, parseEntries, parseEntry_entryDict, ih']
  simp [load_history, h]

theorem foldl_appendRecord (es : List Entry) :
    ∀ acc : List Entry, es.foldl appendRecord acc = acc ++ es := by
  induction es with
  | nil => intro acc; simp [List.foldl_nil]
  | cons e rest ih =>
    intro acc
    simp [List.foldl_cons, appendRecord, ih]

/-! ### Helper lemmas: `next_id` across the operations -/

theorem update_task_next_id (st : AppState) (i : Nat) (t d o n : String) :
    (update_task st i t d o n).1.next_id = st.next_id := by
  unfold update_task
  cases find_task st i <;> rfl

theorem add_entry_next_id (st : AppState) (i : Nat) (a n : String) :
    (add_entry st i a n).1.next_id = st.next_id := by
  unfold add_entry
  cases find_task st i <;> rfl

theorem finalize_task_next_id (st : AppState) (i : Nat) (s c n1 n2 : String) :
    (finalize_task st i s c n1 n2).1.next_id = st.next_id := by
  cases hf : find_task st i with
  | none => simp only [finalize_task, hf]
  | some t =>
    simp only [finalize_task, hf]
    by_cases h : t.status = "SUCCESS" ∨ t.status = "FAILED"
    · rw [if_pos h]
    · rw [if_neg h]

theorem stepOp_next_id_le (st : AppState) (op : Op) :
    st.next_id ≤ (stepOp st op).1.next_id := by
  cases op with
  | add o t d c n1 n2 => exact Nat.le_succ _
  | update i t d o n => exact le_of_eq (update_task_next_id st i t d o n).symm
  | entry i a n => exact le_of_eq (add_entry_next_id st i a n).symm
  | finalize i s c n1 n2 => exact le_of_eq (finalize_task_next_id st i s c n1 n2).symm

theorem stepOp_ids (st : AppState) (op : Op) :
    ∀ i ∈ (stepOp st op).2, st.next_id ≤ i ∧ i < (stepOp st op).1.next_id := by
  cases op with
  | add o t d c n1 n2 =>
    intro j hj
    have h2 : (stepOp st (Op.add o t d c n1 n2)).2 = [st.next_id] := rfl
    rw [h2] at hj
    have hj' : j = st.next_id := List.mem_singleton.mp hj
    subst hj'
    exact ⟨le_rfl, Nat.lt_succ_self _⟩
  | update i t d o n =>
    intro j hj
    have h2 : (stepOp st (Op.update i t d o n)).2 = [] := rfl
    rw [h2] at hj
    cases hj
  | entry i a n =>
    intro j hj
    have h2 : (stepOp st (Op.entry i a n)).2 = [] := rfl
    rw [h2] at hj
    cases hj
  | finalize i s c n1 n2 =>
    intro j hj
    have h2 : (stepOp st (Op.finalize i s c n1 n2)).2 = [] := rfl
    rw [h2] at hj
    cases hj

theorem stepOp_ids_pairwise (st : AppState) (op : Op) :
    (stepOp st op).2.Pairwise (· < ·) := by
  cases op <;> simp [stepOp]

theorem runOps_spec : ∀ (ops : List Op) (st : AppState),
    st.next_id ≤ (runOps st ops).1.next_id ∧
      (∀ i ∈ (runOps st ops).2, st.next_id ≤ i ∧ i < (runOps st ops).1.next_id) ∧
      (runOps st ops).2.Pairwise (· < ·)
  | [], st => by simp [runOps]
  | op :: ops, st => by
    obtain ⟨hle, hmem, hpw⟩ := runOps_spec ops (stepOp st op).1
    have hsle := stepOp_next_id_le st op
    have hsid := stepOp_ids st op
    have hrun : runOps st (op :: ops)
        = ((runOps (stepOp st op).1 ops).1,
           (stepOp st op).2 ++ (runOps (stepOp st op).1 ops).2) := rfl
    rw [hrun]
    refine ⟨le_trans hsle hle, ?_, ?_⟩
    · intro i hi
      rcases List.mem_append.mp hi with h | h
      · obtain ⟨h1, h2⟩ := hsid i h
        exact ⟨h1, lt_of_lt_of_le h2 hle⟩
      · obtain ⟨h1, h2⟩ := hmem i h
        exact ⟨le_trans hsle h1, h2⟩
    · refine List.pairwise_append.mpr ⟨stepOp_ids_pairwise st op, hpw, ?_⟩
      intro a ha b hb
      exact lt_of_lt_of_le (hsid a ha).2 (hmem b hb).1

theorem foldl_max_le (l : List Nat) :
    ∀ a : Nat, a ≤ l.foldl Nat.max a ∧ ∀ k ∈ l, k ≤ l.foldl Nat.max a := by
  induction l with
  | nil =>
    intro a
    exact ⟨le_rfl, by simp⟩
  | cons x xs ih =>
    intro a
    obtain ⟨h1, h2⟩ := ih (Nat.max a x)
    refine ⟨le_trans (Nat.le_max_left a x) h1, ?_⟩
    intro k hk
    rcases List.mem_cons.mp hk with rfl | hk'
    · exact le_trans (Nat.le_max_right a k) h1
    · exact h2 k hk'

/-! ### Claims -/

/-- C1: over any sequence of operations in one process lifetime started
fresh, the ids assigned by `add_task` are strictly increasing in assignment
order (hence each new id exceeds every previously assigned one), all of them
are at least the fixed base 1000 of the `next_id` counter, and no id is ever
assigned twice; moreover, in a process whose counter was restored by
`load_csv` as `max(loaded ids) + 1`, every loaded id is strictly below every
newly assigned id, so ids are never reused across the reload either. -/
theorem C1_ids_monotonic_unique (ops : List Op) :
    (runOps initState ops).2.Pairwise (· < ·) ∧
      (∀ i ∈ (runOps initState ops).2, 1000 ≤ i) ∧
      (runOps initState ops).2.Nodup ∧
      ∀ (tasks : List (Nat × Task)) (st' : AppState),
        st'.next_id = postLoadNextId tasks →
        ∀ k ∈ tasks.map Prod.fst, ∀ j ∈ (runOps st' ops).2, k < j := by
  obtain ⟨-, hmem, hpw⟩ := runOps_spec ops initState
  refine ⟨hpw, fun i hi => (hmem i hi).1, hpw.imp fun h => Nat.ne_of_lt h, ?_⟩
  intro tasks st' hnext k hk j hj
  have hne : ¬ tasks.isEmpty = true := by
    rcases tasks with _ | ⟨p, rest⟩
    · simp at hk
    · simp [List.isEmpty]
  have hk' : k ≤ (tasks.map Prod.fst).foldl Nat.max 0 :=
    (foldl_max_le (tasks.map Prod.fst) 0).2 k hk
  have hklt : k < st'.next_id := by
    rw [hnext, postLoadNextId, if_neg hne]
    omega
  obtain ⟨-, hmem', -⟩ := runOps_spec ops st'
  exact lt_of_lt_of_le hklt (hmem' j hj).1

/-- A previously persisted task with a small id, as a reload scenario. -/
def tLoaded : Task := ⟨500, "Eve", "Old task", "", "LOW", "Eve_500", "IN PROGRESS", "T", none⟩

/-- C1 witness: two creations in a fresh process yield strictly increasing
ids, and after restoring the counter from a table holding id 500 the next
assigned id 501 exceeds the loaded id. -/
theorem C1_witness :
    (runOps initState [Op.add "Ana" "A" "d" "3" "T1" "T2",
        Op.add "Bob" "B" "d" "2" "T3" "T4"]).2.Pairwise (· < ·) ∧ (500 : Nat) < 501 :=
  ⟨(C1_ids_monotonic_unique [Op.add "Ana" "A" "d" "3" "T1" "T2",
      Op.add "Bob" "B" "d" "2" "T3" "T4"]).1,
   (C1_ids_monotonic_unique [Op.add "Ana" "A" "d" "3" "T1" "T2",
      Op.add "Bob" "B" "d" "2" "T3" "T4"]).2.2.2 [(500, tLoaded)]
      ⟨[(500, tLoaded)], [], 501⟩ (by decide) 500 (by decide) 501 (by decide)⟩

/-- C2: finalizing a task whose status is already `SUCCESS` or `FAILED` is
rejected (the `InvalidStateError` outcome) and the whole state — tasks,
history, counter — is returned unchanged: neither `finished_at` nor `status`
is touched a second time, and nothing comment-like is recorded. -/
theorem C2_terminal_transition_rejected (st : AppState) (task_id : Nat) (t : Task)
    (statusIn commentIn now1 now2 : String)
    (hfind : find_task st task_id = some t)
    (hclosed : t.status = "SUCCESS" ∨ t.status = "FAILED") :
    finalize_task st task_id statusIn commentIn now1 now2
      = (st, FinalizeResult.invalidState) := by
  simp only [finalize_task, hfind]
  rw [if_pos hclosed]

/-- A concrete already-closed task and store, used to instantiate claims. -/
def tClosed : Task :=
  ⟨1000, "Ana", "Setup repo", "d", "HIGH", "Ana_1000", "SUCCESS", "T0", some "T1"⟩

/-- A store holding only the closed task `tClosed`. -/
def stClosed : AppState := ⟨[(1000, tClosed)], [(1000, [])], 1001⟩

/-- C2 witness: re-finalizing the closed task 1000 is rejected and the state
is untouched. -/
theorem C2_witness :
    finalize_task stClosed 1000 "FAILED" "again" "T2" "T3"
      = (stClosed, FinalizeResult.invalidState) :=
  C2_terminal_transition_rejected stClosed 1000 tClosed "FAILED" "again" "T2" "T3"
    rfl (Or.inl rfl)

/-- C8: the history view fails (returns the not-found signal) exactly when the
task id is absent from the store; for an existing task it returns that task's
history list; and loading a history log whose file is absent yields the empty
sequence rather than an error. -/
theorem C8_history_view (st : AppState) (task_id : Nat) :
    (find_task st task_id = none → view_history st task_id = none) ∧
      (∀ t, find_task st task_id = some t →
        view_history st task_id = some (histGet st.history task_id)) ∧
      load_history none = ([] : List Entry) := by
  refine ⟨?_, ?_, rfl⟩
  · intro h
    simp [view_history, h]
  · intro t h
    simp [view_history, h]

/-- C8 witness: on the empty store, asking for the history of id 9999 yields
the not-found signal, and a missing log file loads as the empty history. -/
theorem C8_witness :
    view_history initState 9999 = none ∧ load_history none = ([] : List Entry) :=
  ⟨(C8_history_view initState 9999).1 rfl, (C8_history_view initState 9999).2.2⟩

/-- C9: updating an open task with empty (unset) inputs keeps the prior
title/description/owner, and never changes id, priority, status,
`created_at` or `finished_at` (only title, description, owner and the
derived `uri` can change). -/
theorem C9_update_frame (st : AppState) (task_id : Nat) (t : Task)
    (titleIn descriptionIn ownerIn now : String)
    (hfind : find_task st task_id = some t)
    (_hopen : t.status = "IN PROGRESS") :
    ((update_task st task_id titleIn descriptionIn ownerIn now).2.map Task.id = some t.id) ∧
      ((update_task st task_id titleIn descriptionIn ownerIn now).2.map Task.priority
        = some t.priority) ∧
      ((update_task st task_id titleIn descriptionIn ownerIn now).2.map Task.status
        = some t.status) ∧
      ((update_task st task_id titleIn descriptionIn ownerIn now).2.map Task.created_at
        = some t.created_at) ∧
      ((update_task st task_id titleIn descriptionIn ownerIn now).2.map Task.finished_at
        = some t.finished_at) ∧
      (pyStrip titleIn = "" →
        (update_task st task_id titleIn descriptionIn ownerIn now).2.map Task.title
          = some t.title) ∧
      (pyStrip descriptionIn = "" →
        (update_task st task_id titleIn descriptionIn ownerIn now).2.map Task.description
          = some t.description) ∧
      (pyStrip ownerIn = "" →
        (update_task st task_id titleIn descriptionIn ownerIn now).2.map Task.owner
          = some t.owner) := by
  simp only [update_task, hfind]
  refine ⟨rfl, rfl, rfl, rfl, rfl, ?_, ?_, ?_⟩
  · intro h
    simp [h]
  · intro h
    simp [h]
  · intro h
    simp [h]

/-- A concrete open task. -/
def tOpen : Task :=
  ⟨1000, "Ana", "Setup repo", "d", "HIGH", "Ana_1000", "IN PROGRESS", "T0", none⟩

/-- A store holding only the open task `tOpen`. -/
def stOpen : AppState :=
  ⟨[(1000, tOpen)], [(1000, [⟨"T0", "CREATED", "Task \x27Setup repo\x27 created"⟩])], 1001⟩

/-- C9 witness: updating task 1000 of `stOpen` with only the owner set keeps
title and description and all frame fields. -/
theorem C9_witness :
    ((update_task stOpen 1000 "" "" "Bob" "T5").2.map Task.id = some tOpen.id) ∧
      ((update_task stOpen 1000 "" "" "Bob" "T5").2.map Task.priority = some tOpen.priority) ∧
      ((update_task stOpen 1000 "" "" "Bob" "T5").2.map Task.status = some tOpen.status) ∧
      ((update_task stOpen 1000 "" "" "Bob" "T5").2.map Task.created_at
        = some tOpen.created_at) ∧
      ((update_task stOpen 1000 "" "" "Bob" "T5").2.map Task.finished_at
        = some tOpen.finished_at) ∧
      ((update_task stOpen 1000 "" "" "Bob" "T5").2.map Task.title = some tOpen.title) ∧
      ((update_task stOpen 1000 "" "" "Bob" "T5").2.map Task.description
        = some tOpen.description) := by
  obtain ⟨h1, h2, h3, h4, h5, h6, h7, -⟩ :=
    C9_update_frame stOpen 1000 tOpen "" "" "Bob" "T5" rfl rfl
  exact ⟨h1, h2, h3, h4, h5, h6 (by decide), h7 (by decide)⟩

/-- Reading back the log of the task just appended to. -/
theorem histGet_histAppend (h : List (Nat × List Entry)) (k : Nat) (e : Entry) :
    histGet (histAppend h k e) k = histGet h k ++ [e] := by
  unfold histAppend histGet
  rw [dictGet_dictInsert_self]
  rfl

/-- C3 counterexample: finalizing the open task 1000 of `stOpen` with comment
"done" stores a record whose status is `SUCCESS` and whose `finished_at` is
the current time, but the supplied comment equals none of the record's
fields — `Task` has no comment field, so the claim that the task's comment
field is set to the supplied comment is false. -/
theorem C3_counterexample :
    (finalize_task stOpen 1000 "SUCCESS" "done" "T6" "T7").1.dict_tasks
        = [(1000, ⟨1000, "Ana", "Setup repo", "d", "HIGH", "Ana_1000",
                   "SUCCESS", "T0", some "T6"⟩)] ∧
      (finalize_task stOpen 1000 "SUCCESS" "done" "T6" "T7").2
        = FinalizeResult.ok ⟨1000, "Ana", "Setup repo", "d", "HIGH", "Ana_1000",
                             "SUCCESS", "T0", some "T6"⟩ ∧
      "done" ∉ ["Ana", "Setup repo", "d", "HIGH", "Ana_1000", "SUCCESS", "T0", "T6"] := by
  decide

/-- C3 (amended): a successful terminal transition on an open task sets the
stored record's status to the validated terminal value and `finished_at` to
the current time, leaving every other `Task` field as it was; the supplied
comment is not stored on the task (which has no comment field) but is
recorded in the activity text of the appended `COMPLETED` history entry. -/
theorem C3_terminal_transition (st : AppState) (task_id : Nat) (t : Task)
    (statusIn commentIn now1 now2 : String)
    (hfind : find_task st task_id = some t)
    (hopen : ¬(t.status = "SUCCESS" ∨ t.status = "FAILED"))
    (_hvalid : pyUpper (pyStrip statusIn) = "SUCCESS"
      ∨ pyUpper (pyStrip statusIn) = "FAILED") :
    dictGet (finalize_task st task_id statusIn commentIn now1 now2).1.dict_tasks task_id
        = some { t with status := pyUpper (pyStrip statusIn), finished_at := some now1 } ∧
      histGet (finalize_task st task_id statusIn commentIn now1 now2).1.history task_id
        = histGet st.history task_id ++
          [⟨now2, "COMPLETED", "Task marked as " ++ pyUpper (pyStrip statusIn)
            ++ ". Comment: " ++ pyStrip commentIn⟩] ∧
      (finalize_task st task_id statusIn commentIn now1 now2).2
        = FinalizeResult.ok
            { t with status := pyUpper (pyStrip statusIn), finished_at := some now1 } := by
  simp only [finalize_task, hfind]
  rw [if_neg hopen]
  exact ⟨dictGet_dictInsert_self _ _ _, histGet_histAppend _ _ _, rfl⟩

/-- C3 witness: finalizing the open task 1000 of `stOpen` as SUCCESS with
comment "all good" sets status and `finished_at` and appends the comment to
the history log only. -/
theorem C3_witness :
    dictGet (finalize_task stOpen 1000 "SUCCESS" "all good" "T6" "T7").1.dict_tasks 1000
        = some { tOpen with status := "SUCCESS", finished_at := some "T6" } ∧
      histGet (finalize_task stOpen 1000 "SUCCESS" "all good" "T6" "T7").1.history 1000
        = histGet stOpen.history 1000 ++
          [⟨"T7", "COMPLETED", "Task marked as SUCCESS. Comment: all good"⟩] ∧
      (finalize_task stOpen 1000 "SUCCESS" "all good" "T6" "T7").2
        = FinalizeResult.ok { tOpen with status := "SUCCESS", finished_at := some "T6" } :=
  C3_terminal_transition stOpen 1000 tOpen "SUCCESS" "all good" "T6" "T7"
    rfl (by decide) (Or.inl (by decide))

/-- C4 counterexample: with the out-of-range priority choice "9", `add_task`
does not fail at all: the task is created and stored with the silently
substituted default priority "LOW". -/
theorem C4_counterexample :
    (add_task initState "Ana" "T" "D" "9" "N1" "N2").1.dict_tasks
      = [(1000, ⟨1000, "Ana", "T", "D", "LOW", "Ana_1000", "IN PROGRESS", "N1", none⟩)] := by
  decide

/-- C4 (amended): `add_task` never rejects a priority choice: "1"/"2"/"3" map
to LOW/MEDIUM/HIGH and any other entry silently yields priority "LOW" — the
task is created in every case (there is no `ValidationError` path). -/
theorem C4_priority_defaulted (st : AppState)
    (ownerIn titleIn descriptionIn choiceIn now1 now2 : String)
    (hbad : pyStrip choiceIn ≠ "1" ∧ pyStrip choiceIn ≠ "2" ∧ pyStrip choiceIn ≠ "3") :
    (dictGet (add_task st ownerIn titleIn descriptionIn choiceIn now1 now2).1.dict_tasks
        (add_task st ownerIn titleIn descriptionIn choiceIn now1 now2).2).map Task.priority
      = some "LOW" := by
  simp only [add_task]
  rw [dictGet_dictInsert_self]
  show some (priorityOf (pyStrip choiceIn)) = some "LOW"
  congr 1
  simp only [priorityOf, if_neg hbad.1, if_neg hbad.2.1, if_neg hbad.2.2]

/-- C4 witness: creating with the invalid choice "9" yields a stored task
with priority "LOW". -/
theorem C4_witness :
    (dictGet (add_task initState "Ana" "T" "D" "9" "N1" "N2").1.dict_tasks
        (add_task initState "Ana" "T" "D" "9" "N1" "N2").2).map Task.priority
      = some "LOW" :=
  C4_priority_defaulted initState "Ana" "T" "D" "9" "N1" "N2"
    ⟨by decide, by decide, by decide⟩

/-- C5 counterexample: task 1000 of `stClosed` is closed (status SUCCESS),
yet `update_task` does not fail with the not-found signal: it mutates the
stored record's title — closed tasks are not immutable under update. -/
theorem C5_counterexample :
    (update_task stClosed 1000 "New title" "" "" "T4").2
        = some ⟨1000, "Ana", "New title", "d", "HIGH", "Ana_1000",
                "SUCCESS", "T0", some "T1"⟩ ∧
      (update_task stClosed 1000 "New title" "" "" "T4").1.dict_tasks
        = [(1000, ⟨1000, "Ana", "New title", "d", "HIGH", "Ana_1000",
                   "SUCCESS", "T0", some "T1"⟩)] ∧
      tClosed.status = "SUCCESS" := by
  decide

/-- C5 (amended): `update_task` fails with the not-found signal — leaving the
whole state unchanged — exactly when the id is absent from the store
entirely; a present task is updated whether it is open or closed. -/
theorem C5_update_not_found (st : AppState) (task_id : Nat)
    (titleIn descriptionIn ownerIn now : String) :
    (find_task st task_id = none →
        update_task st task_id titleIn descriptionIn ownerIn now = (st, none)) ∧
      ∀ t, find_task st task_id = some t →
        (update_task st task_id titleIn descriptionIn ownerIn now).2 ≠ none := by
  constructor
  · intro h
    simp [update_task, h]
  · intro t h
    simp [update_task, h]

/-- C5 witness: an absent id (9999 on the empty store) fails and changes
nothing, while the closed task 1000 of `stClosed` is updated. -/
theorem C5_witness :
    update_task initState 9999 "x" "" "" "T" = (initState, none) ∧
      (update_task stClosed 1000 "New title" "" "" "T4").2 ≠ none :=
  ⟨(C5_update_not_found initState 9999 "x" "" "" "T").1 rfl,
   (C5_update_not_found stClosed 1000 "New title" "" "" "T4").2 tClosed rfl⟩

/-- C7: appending records to a history log only ever adds them at the end
(whatever was already in the log stays, in order — nothing is reordered,
edited, removed or deduplicated), saving the resulting log and loading it
back reproduces it record for record, and when the timestamps drawn from the
clock are non-decreasing so are the timestamps of the loaded records. -/
theorem C7_append_order (es : List Entry) :
    (∀ log : List Entry, es.foldl appendRecord log = log ++ es) ∧
      load_history (some (save_history (es.foldl appendRecord []))) = es ∧
      ((es.map Entry.date).Chain' (fun a b => strLe a b = true) →
        ((load_history (some (save_history (es.foldl appendRecord [])))).map
          Entry.date).Chain' (fun a b => strLe a b = true)) := by
  have h0 : es.foldl appendRecord [] = es := by
    simpa using foldl_appendRecord es []
  refine ⟨foldl_appendRecord es, ?_, ?_⟩
  · rw [h0, load_save_history]
  · intro h
    rw [h0, load_save_history]
    exact h

/-- A first concrete history record. -/
def entryA : Entry := ⟨"2026-01-01T10:00:00", "CREATED", "Task created"⟩

/-- A second concrete history record, with a later timestamp. -/
def entryB : Entry := ⟨"2026-01-01T11:30:00", "ENTRY", "cloned repo"⟩

/-- C7 witness: two appends starting from the empty log survive a
save-and-load round trip in order, with non-decreasing timestamps. -/
theorem C7_witness :
    ([entryA, entryB].foldl appendRecord [] = [] ++ [entryA, entryB]) ∧
      load_history (some (save_history ([entryA, entryB].foldl appendRecord [])))
        = [entryA, entryB] ∧
      ((load_history (some (save_history ([entryA, entryB].foldl appendRecord [])))).map
        Entry.date).Chain' (fun a b => strLe a b = true) := by
  obtain ⟨h1, h2, h3⟩ := C7_append_order [entryA, entryB]
  have hch : ([entryA, entryB].map Entry.date).Chain' (fun a b => strLe a b = true) := by
    show List.Chain' _ [entryA.date, entryB.date]
    exact List.chain'_pair.mpr (by decide)
  exact ⟨h1 [], h2, h3 hch⟩

/-- Every task produced by the `load_csv` row loop comes from a row whose id
and title cells are both non-empty, and its fields are the parse of that
row. -/
theorem mem_loadCsvAux : ∀ (rows : List Row) (acc : List (Nat × Task)) (p : Nat × Task),
    p ∈ loadCsvAux acc rows →
    p ∈ acc ∨ ∃ r ∈ rows, r.id ≠ "" ∧ r.title ≠ "" ∧
      ∃ k, pyInt? r.id = some k ∧ p = (k, parseRow r k)
  | [], _, _ => fun h => Or.inl h
  | r :: rest, acc, p => by
    intro h
    by_cases hc : r.id ≠ "" ∧ r.title ≠ ""
    · rw [loadCsvAux, if_pos hc] at h
      cases hk : pyInt? r.id with
      | some k =>
        rw [hk] at h
        rcases mem_loadCsvAux rest _ p h with h' | ⟨r', hr', hprop⟩
        · rcases mem_dictInsert _ _ _ _ h' with h'' | h''
          · exact Or.inl h''
          · exact Or.inr ⟨r, List.mem_cons_self r rest, hc.1, hc.2, k, hk, h''⟩
        · exact Or.inr ⟨r', List.mem_cons_of_mem r hr', hprop⟩
      | none =>
        rw [hk] at h
        exact Or.inl h
    · rw [loadCsvAux, if_neg hc] at h
      rcases mem_loadCsvAux rest acc p h with h' | ⟨r', hr', hprop⟩
      · exact Or.inl h'
      · exact Or.inr ⟨r', List.mem_cons_of_mem r hr', hprop⟩

/-- C10: `load_csv` keeps only rows with a non-empty id cell and a non-empty
title cell (every loaded task comes from such a row, as its parse), so a
stored task whose title is empty is silently dropped by a save-and-reload
cycle. -/
theorem C10_empty_rows_skipped :
    (∀ (rows : List Row) (p : Nat × Task), p ∈ load_csv rows →
        ∃ r ∈ rows, r.id ≠ "" ∧ r.title ≠ "" ∧
          ∃ k, pyInt? r.id = some k ∧ p = (k, parseRow r k)) ∧
      ∀ (i : Nat) (t : Task) (h : List (Nat × List Entry)) (n : Nat), t.title = "" →
        load_csv (save_csv ⟨[(i, t)], h, n⟩) = [] := by
  constructor
  · intro rows p hp
    rcases mem_loadCsvAux rows [] p hp with h | h
    · cases h
    · exact h
  · intro i t h n htitle
    simp [save_csv, load_csv, loadCsvAux, saveRow, htitle]

/-- A task whose title is the empty string. -/
def tEmptyTitle : Task :=
  ⟨1000, "Ana", "", "d", "LOW", "Ana_1000", "IN PROGRESS", "T0", none⟩

/-- C10 witness: a store holding only an empty-titled task reloads as empty. -/
theorem C10_witness :
    load_csv (save_csv ⟨[(1000, tEmptyTitle)], [], 1001⟩) = [] :=
  C10_empty_rows_skipped.2 1000 tEmptyTitle [] 1001 rfl

/-- Reloading the saved rows of a key-consistent task list with fresh,
pairwise-distinct keys and non-empty titles appends the normalised tasks to
the accumulator in order. -/
theorem loadCsvAux_save (l : List (Nat × Task)) : ∀ acc : List (Nat × Task),
    (l.map Prod.fst).Nodup →
    (∀ p ∈ l, p.1 ∉ acc.map Prod.fst) →
    (∀ p ∈ l, p.2.id = p.1) →
    (∀ p ∈ l, p.2.title ≠ "") →
    loadCsvAux acc (l.map (fun p => saveRow p.2))
      = acc ++ l.map (fun p => (p.1, normalizeTask p.2)) := by
  induction l with
  | nil =>
    intro acc _ _ _ _
    simp [loadCsvAux]
  | cons p rest ih =>
    intro acc hnodup hfresh hid htitle
    obtain ⟨k, t⟩ := p
    have hidp : t.id = k := hid (k, t) (List.mem_cons_self _ _)
    have htp : t.title ≠ "" := htitle (k, t) (List.mem_cons_self _ _)
    have hrow_id : (saveRow t).id ≠ "" := pyStr_ne_empty t.id
    have hrow_title : (saveRow t).title ≠ "" := htp
    have hint : pyInt? (saveRow t).id = some k := by
      show pyInt? (pyStr t.id) = some k
      rw [pyInt?_pyStr, hidp]
    have hparse : parseRow (saveRow t) k = normalizeTask t := by
      simp [parseRow, saveRow, normalizeTask, hidp]
    simp only [List.map_cons, loadCsvAux]
    rw [if_pos ⟨hrow_id, hrow_title⟩, hint]
    show loadCsvAux (dictInsert acc k (parseRow (saveRow t) k))
        (List.map (fun p => saveRow p.2) rest)
      = acc ++ (k, normalizeTask t) :: List.map (fun p => (p.1, normalizeTask p.2)) rest
    rw [hparse,
      dictInsert_of_not_mem acc k (normalizeTask t)
        (hfresh (k, t) (List.mem_cons_self _ _))]
    have hnodup' : (rest.map Prod.fst).Nodup := (List.nodup_cons.mp hnodup).2
    have hknotin : k ∉ rest.map Prod.fst := (List.nodup_cons.mp hnodup).1
    have hfresh' : ∀ q ∈ rest, q.1 ∉ (acc ++ [(k, normalizeTask t)]).map Prod.fst := by
      intro q hq
      rw [List.map_append, List.mem_append]
      rintro (hin | hin)
      · exact hfresh q (List.mem_cons_of_mem _ hq) hin
      · have : q.1 = k := by simpa using hin
        exact hknotin (this ▸ List.mem_map_of_mem Prod.fst hq)
    rw [ih (acc ++ [(k, normalizeTask t)]) hnodup' hfresh'
      (fun q hq => hid q (List.mem_cons_of_mem _ hq))
      (fun q hq => htitle q (List.mem_cons_of_mem _ hq))]
    simp

/-- C6 counterexample: a store holding one task with an empty title does not
survive a save-and-reload cycle — the reloaded table is empty, so the
round trip does not reproduce an equivalent set of records for every store. -/
theorem C6_counterexample :
    load_csv (save_csv ⟨[(1000, tEmptyTitle)], [], 1001⟩) = [] ∧
      (⟨[(1000, tEmptyTitle)], [], 1001⟩ : AppState).dict_tasks ≠ [] := by
  decide

/-- C6 (amended): persisting the task table and reloading it reproduces the
stored records exactly for stores whose tasks all have non-empty titles,
carry their own key as id, have pairwise-distinct keys, and are fixed by the
load-time normalisation (owner/title/description/uri contain no surrounding
whitespace, priority is upper-case and whitespace-free, and `finished_at` is
an actual string — a `None` would reload as the empty string). -/
theorem C6_roundtrip (st : AppState)
    (hnodup : (st.dict_tasks.map Prod.fst).Nodup)
    (hid : ∀ p ∈ st.dict_tasks, p.2.id = p.1)
    (htitle : ∀ p ∈ st.dict_tasks, p.2.title ≠ "")
    (hnorm : ∀ p ∈ st.dict_tasks, normalizeTask p.2 = p.2) :
    load_csv (save_csv st) = st.dict_tasks := by
  have h := loadCsvAux_save st.dict_tasks [] hnodup (by simp) hid htitle
  have hmap : st.dict_tasks.map (fun p => (p.1, normalizeTask p.2)) = st.dict_tasks := by
    have h1 : st.dict_tasks.map (fun p => (p.1, normalizeTask p.2))
        = st.dict_tasks.map id := by
      apply List.map_congr_left
      intro p hp
      rw [hnorm p hp, id]
    rw [h1, List.map_id]
  show loadCsvAux [] (st.dict_tasks.map (fun p => saveRow p.2)) = st.dict_tasks
  rw [h, hmap]
  rfl

/-- C6 witness: the store holding the (normalised, closed) task `tClosed`
survives the save-and-reload cycle unchanged. -/
theorem C6_witness : load_csv (save_csv stClosed) = stClosed.dict_tasks :=
  C6_roundtrip stClosed (by decide) (by decide) (by decide) (by decide)

end TodoList
